import Mathlib

/-!
Verification development for the wow-luacheck global-extraction scripts
(`update_globals.py` and `scripts/generate_wow_globals.py`).

Python dictionaries mapping symbol names to `True` (plain globals), lists of
strings (field lists), or nested dictionaries (structured globals) are embedded
as the inductive type `Val`: a dictionary is a chain of `vcons` cells ending in
`vnil` (preserving Python's insertion order), `vtrue` embeds the value `True`,
and `vstrs` embeds a list of strings.  Text is embedded as `List Char`; the
regular expressions of the scripts are translated into explicit scanning
functions with the same match semantics (anchoring, greediness, non-greedy
captures, non-overlapping left-to-right iteration).
-/

set_option maxRecDepth 16384

/-- Raw text, as a list of characters. -/
abbrev Str := List Char

/-- A Python value stored in one of the global maps: `True`, a list of
strings, or a (possibly empty) dictionary encoded as a `vcons` chain. -/
inductive Val where
  | vtrue : Val
  | vstrs : List String → Val
  | vnil : Val
  | vcons : String → Val → Val → Val
deriving DecidableEq, Repr

/-- Python `isinstance(v, dict)` for embedded values. -/
def Val.isDict : Val → Bool
  | .vnil => true
  | .vcons _ _ _ => true
  | _ => false

/-- Dictionary lookup (`d.get(k)` / `k in d`): first matching key. -/
def lookupV : Val → String → Option Val
  | .vcons k' v rest, k => if k' = k then some v else lookupV rest k
  | _, _ => none

/-- Dictionary assignment `d[k] = v`: update in place if the key is present
(keeping its position), otherwise append at the end. -/
def setKeyV : Val → String → Val → Val
  | .vcons k' v' rest, k, v =>
    if k' = k then .vcons k v rest else .vcons k' v' (setKeyV rest k v)
  | _, k, v => .vcons k v .vnil

/-- The function `merge_globals(d1, d2)` from `update_globals.py`: for every key of `d2`,
if the key maps to dictionaries on both sides the dictionaries are merged
recursively, otherwise the incoming value overwrites. -/
def mergeV (d1 : Val) : Val → Val
  | .vcons k v rest =>
    mergeV (match lookupV d1 k with
      | some w => if w.isDict && v.isDict then setKeyV d1 k (mergeV w v) else setKeyV d1 k v
      | none => setKeyV d1 k v) rest
  | _ => d1

/-- The dictionary `{'fields': fields}` that the parsers attach to a
structured symbol. -/
def structV (fields : List String) : Val := .vcons "fields" (.vstrs fields) .vnil

/-- The key list of a dictionary value, in order. -/
def keysV : Val → List String
  | .vcons k _ rest => k :: keysV rest
  | _ => []

/-- The entry list of a dictionary value, in order. -/
def entriesOf : Val → List (String × Val)
  | .vcons k v rest => (k, v) :: entriesOf rest
  | _ => []

/- ### Character and string utilities mirroring the Python `str` methods -/

/-- ASCII whitespace stripped by `str.strip()` and matched by `\s`. -/
def pyIsSpace (c : Char) : Bool :=
  c = ' ' || c = '\t' || c = '\n' || c = '\r' || c = '\x0b' || c = '\x0c'

/-- Python `str.splitlines()` on `\n`, `\r\n` and `\r` terminators: the terminators
are removed and a trailing terminator does not produce an extra line. -/
def splitlinesGo : Str → Str → List Str
  | [], cur => if cur.isEmpty then [] else [cur.reverse]
  | '\r' :: '\n' :: rest, cur => cur.reverse :: splitlinesGo rest []
  | '\n' :: rest, cur => cur.reverse :: splitlinesGo rest []
  | '\r' :: rest, cur => cur.reverse :: splitlinesGo rest []
  | c :: rest, cur => splitlinesGo rest (c :: cur)

/-- Python `content.splitlines()`. -/
def splitlines (cs : Str) : List Str := splitlinesGo cs []

/-- Python `str.strip()` (ASCII whitespace). -/
def strip (cs : Str) : Str :=
  ((cs.dropWhile pyIsSpace).reverse.dropWhile pyIsSpace).reverse

/-- Python `str.rstrip()` (ASCII whitespace). -/
def rstrip (cs : Str) : Str :=
  (cs.reverse.dropWhile pyIsSpace).reverse

/-- Boolean membership in a list of strings. -/
def memStr : List String → String → Bool
  | [], _ => false
  | t :: ts, s => if t = s then true else memStr ts s

/-- Add an element to an insertion-ordered set (`set.add`). -/
def insertSet (l : List String) (s : String) : List String :=
  if memStr l s then l else l ++ [s]

/-- Collapse a list to an insertion-ordered set. -/
def dedupList (l : List String) : List String := l.foldl insertSet []

/-- Code-point lexicographic `≤` on character lists (Python string order). -/
def strListLe : Str → Str → Bool
  | [], _ => true
  | _ :: _, [] => false
  | a :: as, b :: bs =>
    if a.toNat < b.toNat then true
    else if b.toNat < a.toNat then false
    else strListLe as bs

/-- Code-point lexicographic `≤` on strings (Python string order). -/
def strLe (a b : String) : Bool := strListLe a.toList b.toList

/-- Insert into a `≤`-sorted list of strings. -/
def insSorted (s : String) : List String → List String
  | [] => [s]
  | t :: ts => if strLe s t then s :: t :: ts else t :: insSorted s ts

/-- Python `sorted(...)` on strings (code-point order, matching Python). -/
def sortStrs (l : List String) : List String := l.foldr insSorted []

/- ### The two per-line parsers of `update_globals.py` -/

/-- Whether the suffix after the closing quote satisfies `,?\s*$`. -/
def tosTailOk : Str → Bool
  | ',' :: t => t.all pyIsSpace
  | t => t.all pyIsSpace

/-- A quote character (`["']` in the regexes). -/
def isQuote (c : Char) : Bool := c = '"' || c = '\''

/-- The symbol extracted from one line by `parse_table_of_strings`: the line
is stripped, skipped if blank or starting with `--`, and otherwise matched
against `^\s*["\']([^"\']+)["\'],?\s*$`. -/
def tosLineSymbol (line : Str) : Option String :=
  let l := strip line
  if l.take 2 = ['-', '-'] then none
  else
    match l with
    | q :: rest =>
      if isQuote q then
        let body := rest.takeWhile (fun c => !isQuote c)
        if body.isEmpty then none
        else
          match rest.drop body.length with
          | q2 :: tail => if isQuote q2 && tosTailOk tail then some (String.mk body) else none
          | [] => none
      else none
    | [] => none

/-- One step of the `parse_table_of_strings` loop. -/
def tosStep (m : Val) (line : Str) : Val :=
  match tosLineSymbol line with
  | some n => setKeyV m n .vtrue
  | none => m

/-- The fold of `parse_table_of_strings` over a list of lines. -/
def tosFold (lines : List Str) : Val := lines.foldl tosStep .vnil

/-- The parser `parse_table_of_strings(content)`: collects every line that is exactly a
quoted string (with optional trailing comma) as a plain global. -/
def parse_table_of_strings (content : Str) : Val := tosFold (splitlines content)

/-- Characters in `[A-Z0-9_]`. -/
def isUpperNum (c : Char) : Bool := c.isUpper || c.isDigit || c = '_'

/-- The symbol extracted from one line by `parse_global_assignments`:
`^([A-Z0-9_]+)\s*=` anchored at the start of the line. -/
def gaLineSymbol (line : Str) : Option String :=
  let name := line.takeWhile isUpperNum
  if name.isEmpty then none
  else
    match (line.drop name.length).dropWhile pyIsSpace with
    | '=' :: _ => some (String.mk name)
    | _ => none

/-- One step of the `parse_global_assignments` loop. -/
def gaStep (m : Val) (line : Str) : Val :=
  match gaLineSymbol line with
  | some n => setKeyV m n .vtrue
  | none => m

/-- The parser `parse_global_assignments(content)`. -/
def parse_global_assignments (content : Str) : Val :=
  (splitlines content).foldl gaStep .vnil

/- ### Scanners translating the multi-line regular expressions

Each `match...At` function decides whether the relevant pattern matches at the
current position and, on success, returns the captured groups together with
the remaining text after the match (the patterns involved are deterministic:
every greedy/non-greedy sub-expression has a unique viable extent).  The
`finditer` drivers replay `re.finditer`: left-to-right, non-overlapping, and
for `^`-anchored patterns (re.MULTILINE) only at the start of the input or
directly after a `'\n'`. -/

/-- Characters in `[A-Za-z0-9_]`. -/
def isWordChar (c : Char) : Bool := c.isAlpha || c.isDigit || c = '_'

/-- Match a literal, returning the rest. -/
def litMatch (lit : Str) (cs : Str) : Option Str :=
  if lit.isPrefixOf cs then some (cs.drop lit.length) else none

/-- Match `\s*=\s*\{`, returning the text after the opening brace. -/
def eqOpenBrace (cs : Str) : Option Str :=
  match cs.dropWhile pyIsSpace with
  | '=' :: s =>
    match s.dropWhile pyIsSpace with
    | '\x7b' :: s2 => some s2
    | _ => none
  | _ => none

/-- Match the non-greedy capture `(.*?)\}`: everything up to the first `}`,
failing when no `}` follows. -/
def takeCapture (cs : Str) : Option (Str × Str) :=
  let body := cs.takeWhile (fun c => c ≠ '\x7d')
  match cs.drop body.length with
  | _ :: rest => some (body, rest)
  | [] => none

/-- Match `.*?fields\s*=\s*\{(.*?)\}` (re.DOTALL): scan forward for the first
position where `fields\s*=\s*\{` matches with a closing `}` available, and
return the capture and the rest.  The fuel bounds the number of scan steps
(one per character), so `cs.length + 1` is always sufficient. -/
def scanFieldsBlock : Nat → Str → Option (Str × Str)
  | 0, _ => none
  | _ + 1, [] => none
  | fuel + 1, c :: rest =>
    match litMatch "fields".toList (c :: rest) with
    | some s =>
      match eqOpenBrace s with
      | some afterBrace =>
        match takeCapture afterBrace with
        | some r => some r
        | none => scanFieldsBlock fuel rest
      | none => scanFieldsBlock fuel rest
    | none => scanFieldsBlock fuel rest

/-- Match `^\s*(C_[A-Za-z0-9_]+)\s*=\s*\{.*?fields\s*=\s*\{(.*?)\}` at the
current position, returning the table name, the captured fields text and the
rest after the match. -/
def matchCTableAt (cs : Str) : Option ((String × Str) × Str) :=
  let s1 := cs.dropWhile pyIsSpace
  match litMatch ['C', '_'] s1 with
  | none => none
  | some s2 =>
    let body := s2.takeWhile isWordChar
    if body.isEmpty then none
    else
      match eqOpenBrace (s2.drop body.length) with
      | none => none
      | some s3 =>
        match scanFieldsBlock (s3.length + 1) s3 with
        | none => none
        | some (cap, rem) => some ((String.mk ('C' :: '_' :: body), cap), rem)

/-- Match `^\s*function\s+([A-Za-z0-9_:]+)` at the current position. -/
def matchFunctionAt (cs : Str) : Option (String × Str) :=
  let s1 := cs.dropWhile pyIsSpace
  match litMatch "function".toList s1 with
  | none => none
  | some s2 =>
    let ws := s2.takeWhile pyIsSpace
    if ws.isEmpty then none
    else
      let s3 := s2.drop ws.length
      let name := s3.takeWhile (fun c => isWordChar c || c = ':')
      if name.isEmpty then none else some (String.mk name, s3.drop name.length)

/-- Match `^\s*local\s+(?:LIT1|LIT2)\s*=\s*\{(.*?)\}` at the current
position, returning the capture and the rest (used with
`GlobalAPI`/`LuaAPI` and with `FrameXML`/`LoadOnDemand`). -/
def matchLocalTableAt (lit1 lit2 : Str) (cs : Str) : Option (Str × Str) :=
  let s1 := cs.dropWhile pyIsSpace
  match litMatch "local".toList s1 with
  | none => none
  | some s2 =>
    let ws := s2.takeWhile pyIsSpace
    if ws.isEmpty then none
    else
      let s3 := s2.drop ws.length
      match (match litMatch lit1 s3 with
             | some r => some r
             | none => litMatch lit2 s3) with
      | none => none
      | some s4 =>
        match eqOpenBrace s4 with
        | none => none
        | some s5 => takeCapture s5

/-- Match `^\s*((?:NUM_)?LE_[A-Z0-9_]+)\s*=` at the current position. -/
def matchLEAt (cs : Str) : Option (String × Str) :=
  let s1 := cs.dropWhile pyIsSpace
  let pfxAndRest : Option (Str × Str) :=
    match litMatch "NUM_LE_".toList s1 with
    | some r => some ("NUM_LE_".toList, r)
    | none =>
      match litMatch "LE_".toList s1 with
      | some r => some ("LE_".toList, r)
      | none => none
  match pfxAndRest with
  | none => none
  | some (pfx, s2) =>
    let body := s2.takeWhile isUpperNum
    if body.isEmpty then none
    else
      match (s2.drop body.length).dropWhile pyIsSpace with
      | '=' :: rem => some (String.mk (pfx ++ body), rem)
      | _ => none

/-- Match `^\s*(Enum|Constants)\s*=\s*\{(.*?)\}` at the current position. -/
def matchEnumBlockAt (cs : Str) : Option ((String × Str) × Str) :=
  let s1 := cs.dropWhile pyIsSpace
  let nameAndRest : Option (String × Str) :=
    match litMatch "Enum".toList s1 with
    | some r => some ("Enum", r)
    | none =>
      match litMatch "Constants".toList s1 with
      | some r => some ("Constants", r)
      | none => none
  match nameAndRest with
  | none => none
  | some (name, s2) =>
    match eqOpenBrace s2 with
    | none => none
    | some s3 =>
      match takeCapture s3 with
      | none => none
      | some (cap, rem) => some ((name, cap), rem)

/-- Match `\s*([A-Z][A-Za-z0-9_]+)\s*=\s*\{(.*?)\}` (unanchored) at the
current position. -/
def matchSubTableAt (cs : Str) : Option ((String × Str) × Str) :=
  match cs.dropWhile pyIsSpace with
  | c :: s2 =>
    if c.isUpper then
      let body := s2.takeWhile isWordChar
      if body.isEmpty then none
      else
        match eqOpenBrace (s2.drop body.length) with
        | none => none
        | some s3 =>
          match takeCapture s3 with
          | none => none
          | some (cap, rem) => some ((String.mk (c :: body), cap), rem)
    else none
  | [] => none

/-- Match `^\s*([A-Z][A-Za-z0-9_]+)\s*=` at the current position. -/
def matchFieldAt (cs : Str) : Option (String × Str) :=
  match cs.dropWhile pyIsSpace with
  | c :: s2 =>
    if c.isUpper then
      let body := s2.takeWhile isWordChar
      if body.isEmpty then none
      else
        match (s2.drop body.length).dropWhile pyIsSpace with
        | '=' :: rem => some (String.mk (c :: body), rem)
        | _ => none
    else none
  | [] => none

/-- Match `['\"]([^'\"]+)['\"]` at the current position. -/
def matchStringAt (cs : Str) : Option (String × Str) :=
  match cs with
  | c :: rest =>
    if isQuote c then
      let body := rest.takeWhile (fun d => !isQuote d)
      if body.isEmpty then none
      else
        match rest.drop body.length with
        | q :: tail => if isQuote q then some (String.mk body, tail) else none
        | [] => none
    else none
  | [] => none

/-- Replays `re.finditer` for a `^`-anchored (re.MULTILINE) pattern: try the matcher
only at line starts, and continue after the end of each match.  Every matcher
used here consumes at least one character and never ends in `'\n'`, so the
guard branch is unreachable and `cs.length + 1` fuel always suffices. -/
def finditerAnchored (matchAt : Str → Option (α × Str)) : Nat → Str → Bool → List α
  | 0, _, _ => []
  | _ + 1, [], _ => []
  | fuel + 1, c :: rest, atStart =>
    if atStart then
      match matchAt (c :: rest) with
      | some (a, rem) =>
        if rem.length < (c :: rest).length then a :: finditerAnchored matchAt fuel rem false
        else a :: finditerAnchored matchAt fuel rest (c = '\n')
      | none => finditerAnchored matchAt fuel rest (c = '\n')
    else finditerAnchored matchAt fuel rest (c = '\n')

/-- Replays `re.finditer` for an unanchored pattern: try the matcher at every
position, continuing after the end of each match. -/
def finditerFree (matchAt : Str → Option (α × Str)) : Nat → Str → List α
  | 0, _ => []
  | _ + 1, [] => []
  | fuel + 1, c :: rest =>
    match matchAt (c :: rest) with
    | some (a, rem) =>
      if rem.length < (c :: rest).length then a :: finditerFree matchAt fuel rem
      else a :: finditerFree matchAt fuel rest
    | none => finditerFree matchAt fuel rest

/-- All matches of the `C_` table pattern in `parse_api_definitions`. -/
def cTableMatches (cs : Str) : List (String × Str) :=
  finditerAnchored matchCTableAt (cs.length + 1) cs true

/-- All matches of the function pattern in `parse_api_definitions`. -/
def functionMatches (cs : Str) : List String :=
  finditerAnchored matchFunctionAt (cs.length + 1) cs true

/-- All captures of the `local GlobalAPI/LuaAPI` pattern. -/
def localApiMatches (cs : Str) : List Str :=
  finditerAnchored (matchLocalTableAt "GlobalAPI".toList "LuaAPI".toList) (cs.length + 1) cs true

/-- All captures of the `local FrameXML/LoadOnDemand` pattern. -/
def fxTableMatches (cs : Str) : List Str :=
  finditerAnchored (matchLocalTableAt "FrameXML".toList "LoadOnDemand".toList) (cs.length + 1) cs true

/-- All matches of the `LE_`/`NUM_LE_` constant pattern. -/
def leMatches (cs : Str) : List String :=
  finditerAnchored matchLEAt (cs.length + 1) cs true

/-- All matches of the `Enum`/`Constants` block pattern. -/
def enumBlockMatches (cs : Str) : List (String × Str) :=
  finditerAnchored matchEnumBlockAt (cs.length + 1) cs true

/-- All matches of the sub-table pattern (unanchored). -/
def subTableMatches (cs : Str) : List (String × Str) :=
  finditerFree matchSubTableAt (cs.length + 1) cs

/-- All matches of the enum field pattern. -/
def fieldMatches (cs : Str) : List String :=
  finditerAnchored matchFieldAt (cs.length + 1) cs true

/-- All matches of the quoted-string pattern. -/
def stringMatches (cs : Str) : List String :=
  finditerFree matchStringAt (cs.length + 1) cs

/- ### `parse_api_definitions`, `parse_framemxml_globals`, `parse_enum_definitions` -/

/-- Add a field to a per-table accumulated field set
(`globals_map[name]['fields'].add(field)` on a `defaultdict`). -/
def addField : List (String × List String) → String → String → List (String × List String)
  | [], k, f => [(k, [f])]
  | (k', fs) :: rest, k, f =>
    if k' = k then (k', if memStr fs f then fs else fs ++ [f]) :: rest
    else (k', fs) :: addField rest k f

/-- Convert the accumulated structured map into dictionary entries, sorting
each field set (`{'fields': sorted(list(v['fields']))}`). -/
def structEntriesOf : List (String × List String) → Val
  | [] => .vnil
  | (k, fs) :: rest => .vcons k (structV (sortStrs fs)) (structEntriesOf rest)

/-- The final loop of `parse_api_definitions` and `parse_framemxml_globals`:
`for s in simple_globals: if s not in globals_map: globals_map[s] = True`. -/
def insertSimples (m : Val) (ss : List String) : Val :=
  ss.foldl (fun m s => if (lookupV m s).isSome then m else setKeyV m s .vtrue) m

/-- The structured part of `parse_api_definitions`: every string literal in
every captured `fields` block, accumulated per `C_` table name. -/
def apiStructuredMap (content : Str) : List (String × List String) :=
  (cTableMatches content).foldl
    (fun m p => (stringMatches p.2).foldl (fun m f => addField m p.1 f) m) []

/-- The structured part of `parse_api_definitions` as dictionary entries. -/
def apiStructured (content : Str) : Val := structEntriesOf (apiStructuredMap content)

/-- Python `group(1).split(':')[0]`. -/
def stripMethod (s : String) : String := String.mk (s.toList.takeWhile (fun c => c ≠ ':'))

/-- The simple-global set of `parse_api_definitions`: function names (method
part removed) plus every string in the `local GlobalAPI`/`LuaAPI` tables. -/
def apiSimpleNames (content : Str) : List String :=
  dedupList ((functionMatches content).map stripMethod ++
    (localApiMatches content).foldl (fun acc g => acc ++ stringMatches g) [])

/-- The parser `parse_api_definitions(content)`. -/
def parse_api_definitions (content : Str) : Val :=
  insertSimples (apiStructured content) (apiSimpleNames content)

/-- Whether a captured string contains a `.` (FrameXML `table.field` form). -/
def hasDot (s : String) : Bool := s.toList.any (fun c => c = '.')

/-- Python `full_name.split(".", 1)[0]`. -/
def dotParent (s : String) : String := String.mk (s.toList.takeWhile (fun c => c ≠ '.'))

/-- Python `full_name.split(".", 1)[1]`. -/
def dotField (s : String) : String :=
  String.mk ((s.toList.dropWhile (fun c => c ≠ '.')).drop 1)

/-- Every string literal captured inside the `local FrameXML`/`LoadOnDemand`
tables, in order. -/
def fxStrings (content : Str) : List String :=
  (fxTableMatches content).foldl (fun acc g => acc ++ stringMatches g) []

/-- The structured part of `parse_framemxml_globals`: dotted names split on
the first dot, fields accumulated per parent. -/
def fxStructuredMap (content : Str) : List (String × List String) :=
  (fxStrings content).foldl
    (fun m s => if hasDot s then addField m (dotParent s) (dotField s) else m) []

/-- The structured part of `parse_framemxml_globals` as dictionary entries. -/
def fxStructured (content : Str) : Val := structEntriesOf (fxStructuredMap content)

/-- The simple-global set of `parse_framemxml_globals`: undotted names. -/
def fxSimpleNames (content : Str) : List String :=
  dedupList ((fxStrings content).filter (fun s => !hasDot s))

/-- The parser `parse_framemxml_globals(content)`. -/
def parse_framemxml_globals (content : Str) : Val :=
  insertSimples (fxStructured content) (fxSimpleNames content)

/-- Add a field to the doubly-nested enum accumulator
(`globals_map[parent][sub]['fields'].add(field)`). -/
def addField2 : List (String × List (String × List String)) → String → String → String →
    List (String × List (String × List String))
  | [], p, s, f => [(p, [(s, [f])])]
  | (p', subs) :: rest, p, s, f =>
    if p' = p then (p', addField subs s f) :: rest
    else (p', subs) :: addField2 rest p s f

/-- The nested accumulator of `parse_enum_definitions`: for each
`Enum`/`Constants` block, each capitalized sub-table, the set of its
capitalized field names. -/
def enumNestedMap (content : Str) : List (String × List (String × List String)) :=
  (enumBlockMatches content).foldl
    (fun m b =>
      (subTableMatches b.2).foldl
        (fun m sub => (fieldMatches sub.2).foldl (fun m f => addField2 m b.1 sub.1 f) m) m) []

/-- Convert the nested enum accumulator into dictionary entries. -/
def enumEntriesOf : List (String × List (String × List String)) → Val
  | [] => .vnil
  | (p, subs) :: rest => .vcons p (structEntriesOf subs) (enumEntriesOf rest)

/-- The parser `parse_enum_definitions(content)`: the nested `Enum`/`Constants` tables,
then every `LE_`/`NUM_LE_` constant assigned unconditionally
(`globals_map[s] = True`). -/
def parse_enum_definitions (content : Str) : Val :=
  (dedupList (leMatches content)).foldl (fun m s => setKeyV m s .vtrue)
    (enumEntriesOf (enumNestedMap content))

/-- The worked brace-tracked example from the specification. -/
def cExampleInput : Str :=
  ("C_Example = \x7b\n    fields = \x7b\n        \"DoThing\",\n        \"GetValue\",\n    \x7d\n\x7d").toList

/- ### The `update_globals.py` pipeline: merging and `.luacheckrc` emission -/

/-- The registry accumulated by `fetch_and_parse_all`: the per-source Symbol
Maps (of the sources whose download succeeded) merged in order into an empty
dictionary, followed by the custom-globals file (parsed with
`parse_table_of_strings`) when it exists. -/
def merged_registry (sources : List Val) (customFile : Option Str) : Val :=
  let g := sources.foldl mergeV .vnil
  match customFile with
  | some txt => mergeV g (parse_table_of_strings txt)
  | none => g

/-- The function `fetch_and_parse_all`: `none` models the `exit(1)` taken when the merged
registry is empty after all sources. -/
def fetch_and_parse_all (sources : List Val) (customFile : Option Str) : Option Val :=
  if entriesOf (merged_registry sources customFile) = [] then none
  else some (merged_registry sources customFile)

/-- Python `"\n".join` and friends. -/
def joinWith (sep : String) : List String → String
  | [] => ""
  | [s] => s
  | s :: rest => s ++ sep ++ joinWith sep rest

/-- Python `"    " * indent`. -/
def indentStr : Nat → String
  | 0 => ""
  | n + 1 => "    " ++ indentStr n

/-- Insert into a list of dictionary entries sorted by key. -/
def insSortedEntry (p : String × Val) : List (String × Val) → List (String × Val)
  | [] => [p]
  | q :: qs => if strLe p.1 q.1 then p :: q :: qs else q :: insSortedEntry p qs

/-- Python `sorted(data.keys())` paired with the values. -/
def sortEntries (l : List (String × Val)) : List (String × Val) :=
  l.foldr insSortedEntry []

/-- Nesting depth of a value, used to bound the recursion of the formatter. -/
def Val.depth : Val → Nat
  | .vcons _ v rest => max (v.depth + 1) rest.depth
  | _ => 0

/-- The formatter `format_globals_recursive(data, indent)`: one rendered part per key in
sorted order; `True` renders as a double-quoted name, a dictionary recurses,
and a field list renders as a sorted single-quoted block.  The fuel only
bounds the nesting depth and is never exhausted when it starts above the
value's depth. -/
def fmtEntriesF : Nat → Val → Nat → List String
  | 0, _, _ => []
  | fuel + 1, data, ind =>
    (sortEntries (entriesOf data)).map (fun p =>
      match p.2 with
      | .vtrue => indentStr ind ++ "\"" ++ p.1 ++ "\""
      | .vstrs fs =>
        indentStr ind ++ p.1 ++ " = \x7b\n" ++
          joinWith ",\n" ((sortStrs fs).map (fun f => indentStr ind ++ "    '" ++ f ++ "'")) ++
          "\n" ++ indentStr ind ++ "\x7d"
      | v =>
        indentStr ind ++ p.1 ++ " = \x7b\n" ++ joinWith ",\n" (fmtEntriesF fuel v (ind + 1)) ++
          "\n" ++ indentStr ind ++ "\x7d")

/-- The formatter `format_globals_recursive(globals_dict)` at the top level. -/
def format_globals_recursive (g : Val) : List String := fmtEntriesF (g.depth + 1) g 1

/-- The rendered `globals = {...}` block of `update_luacheckrc`. -/
def new_globals_block (g : Val) : String :=
  "globals = \x7b\n" ++ joinWith ",\n" (format_globals_recursive g) ++ "\n\x7d"

/-- The string `DEFAULT_LUACHECKRC_CONTENT.lstrip()`: the full default
`.luacheckrc` template, unescaped braces and the `{globals_placeholder}`
replacement field included, exactly as `str.format` receives it. -/
def default_template : String :=
  "std = 'lua51'\n" ++
  "max_line_length = false\n" ++
  "exclude_files = \x7b'**Libs/', '**libs/'\x7d\n" ++
  "ignore = \x7b\n" ++
  "    '11./SLASH_.*', -- Setting an undefined (Slash handler) global variable\n" ++
  "    '11./BINDING_.*', -- Setting an undefined (Keybinding header) global variable\n" ++
  "    '113/LE_.*', -- Accessing an undefined (Lua ENUM type) global variable\n" ++
  "    '113/NUM_LE_.*', -- Accessing an undefined (Lua ENUM type) global variable\n" ++
  "    '211', -- Unused local variable\n" ++
  "    '211/L', -- Unused local variable \"L\"\n" ++
  "    '211/CL', -- Unused local variable \"CL\"\n" ++
  "    '212', -- Unused argument\n" ++
  "    '213', -- Unused loop variable\n" ++
  "    '214', -- Unused hint\n" ++
  "    -- '231', -- Set but never accessed\n" ++
  "    '311', -- Value assigned to a local variable is unused\n" ++
  "    '314', -- Value of a field in a table literal is unused\n" ++
  "    '42.', -- Shadowing a local variable, an argument, a loop variable.\n" ++
  "    '43.', -- Shadowing an upvalue, an upvalue argument, an upvalue loop variable.\n" ++
  "    '542', -- An empty if branch\n" ++
  "    '581', -- Error-prone operator orders\n" ++
  "    '582', -- Error-prone operator orders\n" ++
  "\x7d\n\n" ++
  "\x7bglobals_placeholder\x7d\n"

/-- Python `str.format` with the single keyword `globals_placeholder`,
restricted to the shapes occurring in the default template (no doubled-brace
escapes occur there): the scan copies literal characters, and at each open
brace reads the replacement field up to the next close brace; a field named
anything other than the supplied keyword makes `format` raise `KeyError`,
modelled as `none`.  On the default template the first field encountered is
`'**Libs/', '**libs/'` — the unescaped braces of the `exclude_files` line —
so the call raises before producing anything.  The fuel bounds the scan at
one step per character, so `length + 1` always suffices. -/
def pyFormatGo (block : String) : Nat → Str → Option Str
  | 0, _ => none
  | _ + 1, [] => some []
  | fuel + 1, '\x7b' :: rest =>
    let field := rest.takeWhile (fun c => c ≠ '\x7d')
    match rest.drop field.length with
    | _ :: tail =>
      if String.mk field = "globals_placeholder" then
        (pyFormatGo block fuel tail).map (fun r => block.toList ++ r)
      else none
    | [] => none
  | fuel + 1, c :: rest => (pyFormatGo block fuel rest).map (fun r => c :: r)

/-- Python `template.format(globals_placeholder=block)`, as an `Option`
(`none` models the raised `KeyError`). -/
def pyFormat (template : String) (block : String) : Option String :=
  (pyFormatGo block (template.toList.length + 1) template.toList).map String.mk

/-- First index of `needle` in the text, scanning left to right
(`str.find`). -/
def findSubGo (needle : Str) : Str → Nat → Option Nat
  | [], i => if needle.isPrefixOf ([] : Str) then some i else none
  | c :: t, i => if needle.isPrefixOf (c :: t) then some i else findSubGo needle t (i + 1)

/-- Python `content.find(needle)`, as an `Option`. -/
def findSub (hay needle : Str) : Option Nat := findSubGo needle hay 0

/-- The literal `"globals = {"` searched for by `update_luacheckrc`. -/
def luacheck_needle : Str := ("globals = \x7b").toList

/-- The emitter `update_luacheckrc(globals_dict)` as a function from the
existing file content (`none` when the file does not exist) to the content
written, or `none` when nothing is written: when the file is missing the
source calls `str.format` on the default template, which raises `KeyError`
on the template's unescaped braces before any `open`, so no file is created;
when the file exists, everything from the first `"globals = {"` on is
replaced (or the block is appended), after right-stripping the kept part,
and the write is performed unconditionally. -/
def update_luacheckrc (g : Val) (existing : Option String) : Option String :=
  let block := new_globals_block g
  match existing with
  | none => pyFormat default_template block
  | some content =>
    match findSub content.toList luacheck_needle with
    | some idx => some (String.mk (rstrip (content.toList.take idx)) ++ "\n\n" ++ block ++ "\n")
    | none => some (String.mk (rstrip content.toList) ++ "\n\n" ++ block ++ "\n")

/-- One run of `update_luacheckrc` over a file state: when the emitter
completes it has written unconditionally (flag `true`); when the
missing-file branch raises `KeyError` in `str.format`, nothing is written
and the file stays as it was (flag `false`). -/
def update_luacheckrc_run (g : Val) (existing : Option String) : Bool × Option String :=
  match update_luacheckrc g existing with
  | some newContent => (true, some newContent)
  | none => (false, existing)

/-- Outcome of `update_globals.main()`: whether the run terminated
abnormally (the fatal empty-registry `exit(1)`, or the uncaught `KeyError`
of the missing-file branch), and the final `.luacheckrc` content. -/
structure UpdateRun where
  failed : Bool
  luacheckrc : Option String
deriving DecidableEq, Repr

/-- The entry point `update_globals.main()`: `fetch_and_parse_all` followed
by `update_luacheckrc`; the `exit(1)` on an empty registry happens before
the output file is touched, and if `update_luacheckrc` raises, the run dies
with the file unchanged. -/
def update_globals_main (sources : List Val) (customFile : Option Str)
    (luacheckrc : Option String) : UpdateRun :=
  match fetch_and_parse_all sources customFile with
  | none => ⟨true, luacheckrc⟩
  | some g =>
    match update_luacheckrc g luacheckrc with
    | some newContent => ⟨false, some newContent⟩
    | none => ⟨true, luacheckrc⟩

/- ### The `generate_wow_globals.py` pipeline -/

/-- The helper `write_if_changed(path, content)`: the flag is whether a write happened,
the string is the file's content afterwards. -/
def write_if_changed (existing : Option String) (content : String) : Bool × String :=
  match existing with
  | some old => if old = content then (false, old) else (true, content)
  | none => (true, content)

/-- One line of `read_custom_globals()`: strip, skip blank lines and `#`
comments, otherwise add the stripped line to the set. -/
def customStep (acc : List String) (line : Str) : List String :=
  let s := strip line
  if s.isEmpty then acc
  else if s.take 1 = ['#'] then acc
  else insertSet acc (String.mk s)

/-- The reader `read_custom_globals()`: one symbol per stripped line, skipping blank
lines and `#` comments, collected as a set. -/
def read_custom_globals (file : Option String) : List String :=
  match file with
  | none => []
  | some content => (splitlines content.toList).foldl customStep []

/-- The fixed ignore patterns of `generate_luacheckrc_content`. -/
def ignorePatterns : List String :=
  ["11./SLASH_.*", "11./BINDING_.*", "113/LE_.*", "113/NUM_LE_.*",
   "211", "211/L", "211/CL", "212", "213", "214", "311", "314",
   "42.", "43.", "542", "581", "582"]

/-- The renderer `generate_luacheckrc_content(globals_list)`. -/
def generate_luacheckrc_content (globalsList : List String) : String :=
  joinWith "\n"
    (["std = 'lua51'", "max_line_length = false",
      "exclude_files = \x7b'**Libs/', '**libs/'\x7d", "", "globals = \x7b"] ++
     (sortStrs globalsList).map (fun n => "    '" ++ n ++ "',") ++
     ["\x7d", "", "ignore = \x7b"] ++
     ignorePatterns.map (fun p => "    '" ++ p ++ "',") ++
     ["\x7d", ""])

/-- The renderer `generate_wow_globals_lua(globals_list)`. -/
def generate_wow_globals_lua (globalsList : List String) : String :=
  joinWith "\n"
    (["-- Auto-generated by scripts/generate_wow_globals.py", "globals = \x7b"] ++
     (sortStrs globalsList).map (fun n => "    \"" ++ n ++ "\",") ++
     ["\x7d", ""])

/-- JSON string escaping for the characters relevant to symbol names. -/
def jsonEscape (s : String) : String :=
  String.mk (s.toList.foldr
    (fun c acc =>
      if c = '\\' then '\\' :: '\\' :: acc
      else if c = '"' then '\\' :: '"' :: acc
      else c :: acc) [])

/-- The renderer `generate_wow_globals_json(globals_list)`:
`json.dumps(sorted_globals, indent=2) + "\n"`. -/
def generate_wow_globals_json (globalsList : List String) : String :=
  (match sortStrs globalsList with
   | [] => "[]"
   | s =>
     "[\n" ++ joinWith ",\n" (s.map (fun n => "  \"" ++ jsonEscape n ++ "\"")) ++ "\n]") ++ "\n"

/-- Outcome of `generate_wow_globals.main()`: the `changed` flag and the
three output files' contents afterwards. -/
structure GenerateRun where
  changed : Bool
  luacheckrc : Option String
  wowLua : Option String
  wowJson : Option String
deriving DecidableEq, Repr

/-- The entry point `generate_wow_globals.main()`: union the per-source name sets (sources
that failed contribute nothing) with the custom globals, render the three
outputs, and write each with `write_if_changed`.  There is no empty-registry
check in this script. -/
def generate_main (srcs : List (List String)) (customFile : Option String)
    (luacheckrc wowLua wowJson : Option String) : GenerateRun :=
  let all := dedupList (srcs.foldl (fun a b => a ++ b) [] ++ read_custom_globals customFile)
  let r1 := write_if_changed luacheckrc (generate_luacheckrc_content all)
  let r2 := write_if_changed wowLua (generate_wow_globals_lua all)
  let r3 := write_if_changed wowJson (generate_wow_globals_json all)
  ⟨r1.1 || r2.1 || r3.1, some r1.2, some r2.2, some r3.2⟩

/- ### The Snapshot Differ -/

/-- Modelled from the spec: the Snapshot Differ of §4.3 has no implementation
under `src/` (only the specification describes it), so it is defined from the
spec's contract verbatim: `diff(current, previous) -> (added, removed)` with
`added = |current − previous|` and `removed = |previous − current|`. -/
def snapshot_diff (current previous : Finset String) : Nat × Nat :=
  ((current \ previous).card, (previous \ current).card)

/- ### Helper lemmas -/

theorem lookupV_setKeyV_self (k : String) (v : Val) :
    ∀ d : Val, lookupV (setKeyV d k v) k = some v := by
  intro d
  induction d with
  | vcons k' v' rest ihv ihrest =>
    by_cases h : k' = k
    · simp [setKeyV, h, lookupV]
    · simp [setKeyV, h, lookupV, ihrest]
  | vtrue => simp [setKeyV, lookupV]
  | vstrs l => simp [setKeyV, lookupV]
  | vnil => simp [setKeyV, lookupV]

theorem lookupV_setKeyV_ne (k : String) (v : Val) (j : String) (hj : j ≠ k) :
    ∀ d : Val, lookupV (setKeyV d k v) j = lookupV d j := by
  have hj' : ¬k = j := fun h => hj h.symm
  intro d
  induction d with
  | vcons k' v' rest ihv ihrest =>
    by_cases h : k' = k
    · subst h
      simp [setKeyV, lookupV, hj']
    · by_cases h2 : k' = j <;> simp [setKeyV, h, lookupV, h2, hj, ihrest]
  | vtrue => simp [setKeyV, lookupV, hj']
  | vstrs l => simp [setKeyV, lookupV, hj']
  | vnil => simp [setKeyV, lookupV, hj']

theorem lookupV_none_of_not_mem (k : String) :
    ∀ d : Val, k ∉ keysV d → lookupV d k = none := by
  intro d
  induction d with
  | vcons k' v' rest ihv ihrest =>
    intro h
    simp only [keysV, List.mem_cons, not_or] at h
    have h1 : ¬k' = k := fun hh => h.1 hh.symm
    simp [lookupV, h1, ihrest h.2]
  | vtrue => intro _; simp [lookupV]
  | vstrs l => intro _; simp [lookupV]
  | vnil => intro _; simp [lookupV]

/-- The recursion step of `mergeV` on a nonempty incoming dictionary. -/
theorem mergeV_cons_eq (d1 : Val) (k : String) (v : Val) (rest : Val) :
    mergeV d1 (.vcons k v rest) =
      mergeV (match lookupV d1 k with
        | some w => if w.isDict && v.isDict then setKeyV d1 k (mergeV w v) else setKeyV d1 k v
        | none => setKeyV d1 k v) rest := rfl

/-- Lookup in a merged dictionary, described by the two sides' lookups
(for an incoming dictionary without duplicate keys). -/
theorem lookupV_mergeV : ∀ d2 d1 : Val, (keysV d2).Nodup → ∀ k,
    lookupV (mergeV d1 d2) k =
      match lookupV d2 k, lookupV d1 k with
      | none, r => r
      | some v, none => some v
      | some v, some w => if w.isDict && v.isDict then some (mergeV w v) else some v := by
  intro d2
  induction d2 with
  | vcons k2 v2 rest ihv ihrest =>
    intro d1 hnd k
    have hnd' := List.nodup_cons.mp (show (k2 :: keysV rest).Nodup by simpa [keysV] using hnd)
    have hk2 : k2 ∉ keysV rest := hnd'.1
    have hndr : (keysV rest).Nodup := hnd'.2
    rw [mergeV_cons_eq]
    by_cases hkk : k = k2
    · subst hkk
      have hrest : lookupV rest k = none := lookupV_none_of_not_mem k rest hk2
      rcases hd1 : lookupV d1 k with _ | w
      · simp [ihrest _ hndr, hrest, hd1, lookupV, lookupV_setKeyV_self]
      · by_cases hdict : w.isDict && v2.isDict
        · simp [ihrest _ hndr, hrest, hd1, lookupV, hdict, lookupV_setKeyV_self]
        · simp [ihrest _ hndr, hrest, hd1, lookupV, hdict, lookupV_setKeyV_self]
    · have hne : ¬k2 = k := fun h => hkk h.symm
      have hl2 : lookupV (Val.vcons k2 v2 rest) k = lookupV rest k := by
        simp [lookupV, hne]
      rcases hd1 : lookupV d1 k2 with _ | w
      · simp only [ihrest _ hndr, hl2, hd1, lookupV_setKeyV_ne k2 _ _ hkk]
      · by_cases hdict : w.isDict && v2.isDict <;>
          simp only [ihrest _ hndr, hl2, hd1, hdict, if_true, if_false,
            lookupV_setKeyV_ne k2 _ _ hkk, Bool.false_eq_true]
  | vtrue => intro d1 _ k; simp [mergeV, lookupV]
  | vstrs l => intro d1 _ k; simp [mergeV, lookupV]
  | vnil => intro d1 _ k; simp [mergeV, lookupV]

/-- Merging into the empty registry reproduces the incoming map's lookups. -/
theorem lookupV_mergeV_vnil (A : Val) (hA : (keysV A).Nodup) (k : String) :
    lookupV (mergeV .vnil A) k = lookupV A k := by
  rw [lookupV_mergeV A .vnil hA k]
  rcases lookupV A k with _ | v <;> simp [lookupV]

theorem lookupV_insertSimples (ss : List String) : ∀ (m : Val) (k : String) (v : Val),
    lookupV m k = some v → lookupV (insertSimples m ss) k = some v := by
  induction ss with
  | nil => intro m k v h; simpa [insertSimples] using h
  | cons s rest ih =>
    intro m k v h
    have hstep : insertSimples m (s :: rest) =
        insertSimples (if (lookupV m s).isSome then m else setKeyV m s .vtrue) rest := by
      simp [insertSimples]
    rw [hstep]
    by_cases hs : (lookupV m s).isSome
    · rw [if_pos hs]; exact ih m k v h
    · rw [if_neg hs]
      apply ih
      have hne : k ≠ s := by
        intro he
        subst he
        rw [h] at hs
        simp at hs
      rw [lookupV_setKeyV_ne s _ k hne]
      exact h

theorem lookupV_structEntriesOf : ∀ (l : List (String × List String)) (k : String) (v : Val),
    lookupV (structEntriesOf l) k = some v → v.isDict = true := by
  intro l
  induction l with
  | nil => intro k v h; simp [structEntriesOf, lookupV] at h
  | cons p rest ih =>
    intro k v h
    rcases p with ⟨k', fs⟩
    by_cases he : k' = k
    · simp only [structEntriesOf, lookupV, he, if_pos] at h
      have hv : structV (sortStrs fs) = v := Option.some.inj h
      rw [← hv]
      simp [structV, Val.isDict]
    · simp only [structEntriesOf, lookupV, he, if_neg, if_false] at h
      exact ih k v h

/-- A fold whose step fixes the accumulator on every processed element
leaves the accumulator unchanged. -/
theorem foldl_fix {α β : Type} (f : β → α → β) (P : α → Prop)
    (hf : ∀ b a, P a → f b a = b) :
    ∀ (l : List α) (b : β), (∀ a ∈ l, P a) → l.foldl f b = b := by
  intro l
  induction l with
  | nil => intro b _; rfl
  | cons a rest ih =>
    intro b h
    rw [List.foldl_cons, hf b a (h a (by simp))]
    exact ih b (fun x hx => h x (by simp [hx]))

theorem isPrefixOf_append_self (a b : Str) : a.isPrefixOf (a ++ b) = true := by
  induction a with
  | nil => simp [List.isPrefixOf]
  | cons c cs ih => simp [List.isPrefixOf, ih]

theorem findSubGo_self (needle hay : Str) (i : Nat) (h : needle.isPrefixOf hay = true) :
    findSubGo needle hay i = some i := by
  cases hay with
  | nil => simp [findSubGo, h]
  | cons c t => simp [findSubGo, h]

theorem findSubGo_boundary (needle rest : Str) :
    ∀ (pre : Str) (i : Nat),
      (∀ j, j < pre.length → needle.isPrefixOf (pre.drop j ++ (needle ++ rest)) = false) →
      findSubGo needle (pre ++ (needle ++ rest)) i = some (i + pre.length) := by
  intro pre
  induction pre with
  | nil =>
    intro i _
    simpa using findSubGo_self needle (needle ++ rest) i (isPrefixOf_append_self needle rest)
  | cons c pre' ih =>
    intro i h
    have h0 : needle.isPrefixOf (c :: (pre' ++ (needle ++ rest))) = false := by
      simpa using h 0 (by simp)
    have hrec := ih (i + 1) (fun j hj => by
      simpa [List.drop_succ_cons] using h (j + 1) (by simpa using Nat.succ_lt_succ hj))
    calc findSubGo needle ((c :: pre') ++ (needle ++ rest)) i
        = findSubGo needle (pre' ++ (needle ++ rest)) (i + 1) := by
          simp [findSubGo, h0]
      _ = some (i + 1 + pre'.length) := hrec
      _ = some (i + (c :: pre').length) := by
          simp [List.length_cons]
          omega

theorem mem_insertSet {l : List String} {x s : String} (h : s ∈ insertSet l x) :
    s ∈ l ∨ s = x := by
  unfold insertSet at h
  by_cases hm : memStr l x
  · rw [if_pos hm] at h
    exact Or.inl h
  · rw [if_neg hm] at h
    rcases List.mem_append.mp h with h | h
    · exact Or.inl h
    · exact Or.inr (List.mem_singleton.mp h)

theorem mem_customFold : ∀ (lines : List Str) (acc : List String) (s : String),
    s ∈ lines.foldl customStep acc →
    s ∈ acc ∨ ∃ l, l ∈ lines ∧ strip l ≠ [] ∧
      (strip l).take 1 ≠ ['#'] ∧ s = String.mk (strip l) := by
  intro lines
  induction lines with
  | nil => intro acc s h; exact Or.inl h
  | cons l0 rest ih =>
    intro acc s h
    rw [List.foldl_cons] at h
    rcases ih _ s h with hacc | ⟨l, hl, h1, h2, h3⟩
    · unfold customStep at hacc
      by_cases hb : (strip l0).isEmpty
      · rw [if_pos hb] at hacc
        exact Or.inl hacc
      · rw [if_neg hb] at hacc
        by_cases hc : (strip l0).take 1 = ['#']
        · rw [if_pos hc] at hacc
          exact Or.inl hacc
        · rw [if_neg hc] at hacc
          rcases mem_insertSet hacc with hacc | hs
          · exact Or.inl hacc
          · exact Or.inr ⟨l0, by simp, by simpa using hb, hc, hs⟩
    · exact Or.inr ⟨l, by simp [hl], h1, h2, h3⟩

theorem lookup_tosFold_vtrue : ∀ (lines : List Str) (m : Val),
    (∀ k v, lookupV m k = some v → v = .vtrue) →
    ∀ k v, lookupV (lines.foldl tosStep m) k = some v → v = .vtrue := by
  intro lines
  induction lines with
  | nil => intro m hm; simpa using hm
  | cons l rest ih =>
    intro m hm
    rw [List.foldl_cons]
    apply ih
    intro k v h
    unfold tosStep at h
    rcases hsym : tosLineSymbol l with _ | n
    · rw [hsym] at h
      exact hm k v h
    · rw [hsym] at h
      by_cases hk : k = n
      · subst hk
        rw [lookupV_setKeyV_self] at h
        exact (Option.some.inj h).symm
      · rw [lookupV_setKeyV_ne n _ k hk] at h
        exact hm k v h

/- ### Claims -/

/-- Claim C1 is false on the code (counterexample): merging a Symbol Map with
key `K` plain into a registry where `K` is `Structured{fields={"f"}}` yields
`K ↦ True` — the plain incoming entry overwrites the structured entry, and
the fields are dropped, contrary to the claimed `Structured`-dominates-union
rule. -/
theorem c1_plain_overwrites_structured_cex :
    lookupV (mergeV (.vcons "K" (structV ["f"]) .vnil) (.vcons "K" .vtrue .vnil)) "K"
        = some Val.vtrue ∧
    lookupV (mergeV (.vcons "K" (structV ["f"]) .vnil) (.vcons "K" .vtrue .vnil)) "K"
        ≠ some (structV ["f"]) := by
  exact ⟨by decide, by decide⟩

/-- Claim C1 (amended): `merge_globals` is last-wins except when both sides
are dictionaries.  Whenever the incoming value is not a dictionary, or the
existing value is not a dictionary, the incoming value simply overwrites —
in particular merging `K` plain into a registry with `K` structured yields
`K` plain — and when both sides are `{'fields': ...}` dictionaries the
incoming fields list replaces (not unions) the existing one. -/
theorem c1_merge_last_wins (d1 : Val) (k : String) (v : Val)
    (h : v.isDict = false ∨ ∀ w, lookupV d1 k = some w → w.isDict = false) :
    lookupV (mergeV d1 (.vcons k v .vnil)) k = some v ∧
    ∀ F1 F2 : List String,
      lookupV (mergeV (.vcons k (structV F1) .vnil) (.vcons k (structV F2) .vnil)) k
        = some (structV F2) := by
  constructor
  · rw [mergeV_cons_eq]
    rcases hd : lookupV d1 k with _ | w
    · simp [mergeV, lookupV_setKeyV_self]
    · have hdict : (w.isDict && v.isDict) = false := by
        rcases h with hv | hw
        · simp [hv]
        · simp [hw w hd]
      simp [mergeV, hdict, lookupV_setKeyV_self]
  · intro F1 F2
    simp [mergeV_cons_eq, lookupV, structV, Val.isDict, setKeyV, mergeV]

/-- Witness for the amended C1 at concrete inputs: a plain incoming value
overwrites `K ↦ Structured{fields={"f"}}`, and `Structured{fields={"b"}}`
incoming replaces `Structured{fields={"a"}}`. -/
theorem c1_merge_last_wins_witness :
    lookupV (mergeV (.vcons "K" (structV ["f"]) .vnil) (.vcons "K" .vtrue .vnil)) "K"
        = some Val.vtrue ∧
    lookupV (mergeV (.vcons "K" (structV ["a"]) .vnil) (.vcons "K" (structV ["b"]) .vnil)) "K"
        = some (structV ["b"]) :=
  ⟨(c1_merge_last_wins (.vcons "K" (structV ["f"]) .vnil) "K" .vtrue (Or.inl rfl)).1,
   (c1_merge_last_wins (.vcons "K" (structV ["a"]) .vnil) "K" .vtrue (Or.inl rfl)).2 ["a"] ["b"]⟩

/-- Claim C2 is false on the code (counterexample): folding the maps
`A = {K: Structured{fields={"f"}}}` and `B = {K: Plain}` into the empty
registry in the two orders gives different registries — the later source
wins, so source order changes the result, even at the level of the value
stored at `K`. -/
theorem c2_fold_order_dependent_cex :
    mergeV (mergeV .vnil (.vcons "K" (structV ["f"]) .vnil)) (.vcons "K" .vtrue .vnil)
        ≠ mergeV (mergeV .vnil (.vcons "K" .vtrue .vnil)) (.vcons "K" (structV ["f"]) .vnil) ∧
    lookupV (mergeV (mergeV .vnil (.vcons "K" (structV ["f"]) .vnil)) (.vcons "K" .vtrue .vnil)) "K"
        ≠ lookupV (mergeV (mergeV .vnil (.vcons "K" .vtrue .vnil)) (.vcons "K" (structV ["f"]) .vnil)) "K" := by
  exact ⟨by decide, by decide⟩

/-- Claim C2 (amended): folding two Symbol Maps into the empty registry is
order-independent provided the maps agree on every shared key (each map
having no duplicate keys, as Python dictionaries do); without that proviso
the fold is order-dependent. -/
theorem c2_fold_comm (A B : Val) (hA : (keysV A).Nodup) (hB : (keysV B).Nodup)
    (hAB : ∀ k vA vB, lookupV A k = some vA → lookupV B k = some vB → vA = vB) :
    ∀ k, lookupV (mergeV (mergeV .vnil A) B) k = lookupV (mergeV (mergeV .vnil B) A) k := by
  intro k
  rw [lookupV_mergeV B (mergeV .vnil A) hB k, lookupV_mergeV A (mergeV .vnil B) hA k,
    lookupV_mergeV_vnil A hA k, lookupV_mergeV_vnil B hB k]
  rcases ha : lookupV A k with _ | va <;> rcases hb : lookupV B k with _ | vb
  · rfl
  · rfl
  · rfl
  · have : va = vb := hAB k va vb ha hb
    subst this
    rfl

/-- Witness for the amended C2 at concrete inputs: two maps sharing key `X`
with the same plain value fold to the same registry in either order. -/
theorem c2_fold_comm_witness :
    lookupV (mergeV (mergeV .vnil (.vcons "X" .vtrue .vnil)) (.vcons "X" .vtrue .vnil)) "X"
      = lookupV (mergeV (mergeV .vnil (.vcons "X" .vtrue .vnil)) (.vcons "X" .vtrue .vnil)) "X" :=
  c2_fold_comm (.vcons "X" .vtrue .vnil) (.vcons "X" .vtrue .vnil) (by decide) (by decide)
    (by
      intro k vA vB h1 h2
      by_cases hx : ("X" : String) = k
      · simp only [lookupV, if_pos hx] at h1 h2
        rw [← Option.some.inj h1, ← Option.some.inj h2]
      · simp [lookupV, hx] at h1) "X"

/-- Claim C3 is false for the `generate_wow_globals.py` pipeline
(counterexample): when every source fails and there is no custom input the
registry is empty, yet `main` performs no fatal check — it writes all three
output files (which did not exist before) and reports them as changed,
instead of aborting before writing. -/
theorem c3_generate_writes_empty_registry_cex :
    (generate_main [] none none none none).changed = true ∧
    (generate_main [] none none none none).luacheckrc ≠ none ∧
    (generate_main [] none none none none).wowLua ≠ none ∧
    (generate_main [] none none none none).wowJson ≠ none := by
  exact ⟨by decide, by decide, by decide, by decide⟩

/-- Claim C3 (amended): only the `update_globals.py` pipeline has the fatal
empty-registry exit: if the registry merged from all sources and the custom
input is empty, `main` fails via `exit(1)` before `update_luacheckrc` runs,
leaving `.luacheckrc` exactly as it was; the `generate_wow_globals.py`
pipeline performs no such check and writes its outputs even when the
registry is empty. -/
theorem c3_update_aborts_on_empty (sources : List Val) (customFile : Option Str)
    (fs : Option String) (h : entriesOf (merged_registry sources customFile) = []) :
    update_globals_main sources customFile fs = ⟨true, fs⟩ := by
  unfold update_globals_main fetch_and_parse_all
  rw [if_pos h]

/-- Witness for the amended C3: with no successfully fetched sources and no
custom file, the update pipeline fails and an existing `.luacheckrc` is left
untouched. -/
theorem c3_update_aborts_on_empty_witness :
    update_globals_main [] none (some "keep me") = ⟨true, some "keep me"⟩ :=
  c3_update_aborts_on_empty [] none (some "keep me") (by decide)

/-- Claim C4 is false for `update_luacheckrc` (counterexample): with an
existing `.luacheckrc` whose content already equals the rendering of the
registry `{A: Plain}`, the emitter still performs its write (the written
content is byte-identical, but the write is not skipped), contrary to the
claimed write-only-if-changed contract for every emitter. -/
theorem c4_update_luacheckrc_always_writes_cex :
    update_luacheckrc_run (.vcons "A" .vtrue .vnil)
        (some "std = 'x'\n\nglobals = \x7b\n    \"A\"\n\x7d\n")
      = (true, some "std = 'x'\n\nglobals = \x7b\n    \"A\"\n\x7d\n") := by
  decide

/-- Claim C4 (amended): the three `generate_wow_globals.py` emitters do obey
the contract — `write_if_changed` writes only when the existing content
differs (or the file is missing), re-emitting the same content is a no-op
returning the same bytes, and renderings are deterministic — but
`update_luacheckrc` in `update_globals.py` does not: whenever the target
file exists it performs a write on every run, even when the new content
equals the existing file, and when the file is missing it raises `KeyError`
from `str.format` on the brace-laden default template before any write, so
that run writes nothing at all. -/
theorem c4_write_if_changed_contract (existing : Option String) (c : String) :
    ((write_if_changed existing c).1 = true → existing ≠ some c) ∧
    (write_if_changed existing c).2 = c ∧
    write_if_changed (some c) c = (false, c) ∧
    (∀ (g : Val) (content : String), (update_luacheckrc_run g (some content)).1 = true) ∧
    ∀ g : Val, update_luacheckrc_run g none = (false, none) := by
  refine ⟨?_, ?_, ?_, ?_, fun g => rfl⟩
  · intro hw he
    subst he
    simp [write_if_changed] at hw
  · rcases existing with _ | old
    · rfl
    · by_cases he : old = c
      · simp [write_if_changed, he]
      · simp [write_if_changed, he]
  · simp [write_if_changed]
  · intro g content
    unfold update_luacheckrc_run update_luacheckrc
    rcases h : findSub content.toList luacheck_needle with _ | idx <;>
      simp only [String.toList] at h <;> simp [h]

/-- Witness for the amended C4 at concrete inputs: re-writing identical
content through `write_if_changed` is a skipped write, while
`update_luacheckrc` over an existing file always writes. -/
theorem c4_write_if_changed_contract_witness :
    write_if_changed (some "x") "x" = (false, "x") ∧
    (update_luacheckrc_run Val.vnil (some "y")).1 = true :=
  ⟨(c4_write_if_changed_contract (some "x") "x").2.2.1,
   (c4_write_if_changed_contract none "x").2.2.2.1 Val.vnil "y"⟩

/-- Claim C5: every dialect parser is a total function of its input text
(each is defined below as a terminating Lean function on arbitrary character
lists, matching the Python code, which performs no raising operation), and
text matching no recognized pattern contributes nothing: if no line matches
the per-line patterns the line parsers return the empty map, if none of the
scanned multi-line patterns matches the API/enum/FrameXML parsers return the
empty map, and removing a non-matching line leaves the
`parse_table_of_strings` fold unchanged. -/
theorem c5_parsers_skip_unmatched (content : Str) :
    ((∀ l ∈ splitlines content, tosLineSymbol l = none) →
        parse_table_of_strings content = .vnil) ∧
    ((∀ l ∈ splitlines content, gaLineSymbol l = none) →
        parse_global_assignments content = .vnil) ∧
    (cTableMatches content = [] → functionMatches content = [] →
        localApiMatches content = [] → parse_api_definitions content = .vnil) ∧
    (leMatches content = [] → enumBlockMatches content = [] →
        parse_enum_definitions content = .vnil) ∧
    (fxTableMatches content = [] → parse_framemxml_globals content = .vnil) ∧
    (∀ pre post l, tosLineSymbol l = none →
        tosFold (pre ++ l :: post) = tosFold (pre ++ post)) := by
  refine ⟨?_, ?_, ?_, ?_, ?_, ?_⟩
  · intro h
    unfold parse_table_of_strings tosFold
    exact foldl_fix tosStep (fun l => tosLineSymbol l = none)
      (fun b a ha => by simp [tosStep, ha]) _ _ h
  · intro h
    unfold parse_global_assignments
    exact foldl_fix gaStep (fun l => gaLineSymbol l = none)
      (fun b a ha => by simp [gaStep, ha]) _ _ h
  · intro h1 h2 h3
    unfold parse_api_definitions apiStructured apiStructuredMap apiSimpleNames
    rw [h1, h2, h3]
    rfl
  · intro h1 h2
    unfold parse_enum_definitions enumNestedMap
    rw [h1, h2]
    rfl
  · intro h
    unfold parse_framemxml_globals fxStructured fxStructuredMap fxSimpleNames fxStrings
    rw [h]
    rfl
  · intro pre post l hl
    unfold tosFold
    rw [List.foldl_append, List.foldl_append, List.foldl_cons]
    have hfix : tosStep (List.foldl tosStep Val.vnil pre) l = List.foldl tosStep Val.vnil pre := by
      simp [tosStep, hl]
    rw [hfix]

/-- Witness for C5 at concrete garbage input: every parser returns the empty
map, and dropping the non-matching line `junk` from a line list does not
change the `parse_table_of_strings` fold. -/
theorem c5_parsers_skip_unmatched_witness :
    parse_table_of_strings ("junk ?!\n-- nope").toList = .vnil ∧
    parse_global_assignments ("junk ?!\n-- nope").toList = .vnil ∧
    parse_api_definitions ("junk ?!\n-- nope").toList = .vnil ∧
    parse_enum_definitions ("junk ?!\n-- nope").toList = .vnil ∧
    parse_framemxml_globals ("junk ?!\n-- nope").toList = .vnil ∧
    tosFold ([("'A'").toList] ++ ("junk").toList :: []) = tosFold ([("'A'").toList] ++ []) :=
  ⟨(c5_parsers_skip_unmatched _).1 (by decide),
   (c5_parsers_skip_unmatched _).2.1 (by decide),
   (c5_parsers_skip_unmatched _).2.2.1 (by decide) (by decide) (by decide),
   (c5_parsers_skip_unmatched _).2.2.2.1 (by decide) (by decide),
   (c5_parsers_skip_unmatched _).2.2.2.2.1 (by decide),
   (c5_parsers_skip_unmatched ([] : Str)).2.2.2.2.2 [("'A'").toList] [] ("junk").toList (by decide)⟩

/-- Claim C6: on the specification's worked example for the brace-tracked
dialect, `parse_api_definitions` yields exactly the Symbol Map
`{C_Example: Structured{fields={"DoThing","GetValue"}}}` — one structured
symbol with exactly those two fields, and no other symbols. -/
theorem c6_c_example_parses_structured :
    parse_api_definitions cExampleInput
      = .vcons "C_Example" (structV ["DoThing", "GetValue"]) .vnil := by
  decide

/-- Claim C7 is false on the code (counterexample): a custom-input line
`Table.Field` is recorded verbatim as the single plain symbol
`"Table.Field"` by `read_custom_globals`, and the quoted custom line
`"Table.Field"` is recorded by `parse_table_of_strings` as the plain key
`Table.Field` — no `Structured` entry named `Table` is created in either
custom path, contrary to the claimed dot-splitting. -/
theorem c7_dotted_custom_stays_plain_cex :
    read_custom_globals (some "Table.Field\n") = ["Table.Field"] ∧
    parse_table_of_strings ("\"Table.Field\",").toList
      = .vcons "Table.Field" .vtrue .vnil ∧
    lookupV (parse_table_of_strings ("\"Table.Field\",").toList) "Table" = none := by
  exact ⟨by decide, by decide, by decide⟩

/-- Claim C7 (amended): the custom-symbols paths never build structured
entries: every value produced by `parse_table_of_strings` (used on
`custom_globals.lua`) is plain, and every symbol returned by
`read_custom_globals` (used on `custom_globals.txt`) is one of the file's
stripped non-blank non-`#` lines taken verbatim — a `table.field` line is
kept whole, dot included, as a plain entry; dot-splitting happens only in
the FrameXML parser. -/
theorem c7_custom_entries_plain_verbatim :
    (∀ (content : Str) (k : String) (v : Val),
      lookupV (parse_table_of_strings content) k = some v → v = .vtrue) ∧
    (∀ (content : String) (s : String), s ∈ read_custom_globals (some content) →
      ∃ l, l ∈ splitlines content.toList ∧ strip l ≠ [] ∧
        (strip l).take 1 ≠ ['#'] ∧ s = String.mk (strip l)) := by
  constructor
  · intro content k v h
    unfold parse_table_of_strings tosFold at h
    exact lookup_tosFold_vtrue (splitlines content) .vnil
      (by intro k v h; simp [lookupV] at h) k v h
  · intro content s h
    unfold read_custom_globals at h
    rcases mem_customFold (splitlines content.toList) [] s h with h0 | he
    · simp at h0
    · rcases he with ⟨l, hl, h1, h2, h3⟩
      have hne : strip l ≠ [] := by simpa using h1
      exact ⟨l, hl, hne, h2, h3⟩

/-- Witness for the amended C7 at concrete inputs: the entry that
`parse_table_of_strings` stores for a quoted dotted line is plain, and the
symbol `read_custom_globals` returns for the line `Table.Field` is that
stripped line verbatim. -/
theorem c7_custom_entries_plain_verbatim_witness :
    Val.vtrue = Val.vtrue ∧
    ∃ l, l ∈ splitlines (("Table.Field\n" : String)).toList ∧ strip l ≠ [] ∧
      (strip l).take 1 ≠ ['#'] ∧ "Table.Field" = String.mk (strip l) :=
  ⟨c7_custom_entries_plain_verbatim.1 ("\"Table.Field\",").toList "Table.Field" Val.vtrue
      (by decide),
   c7_custom_entries_plain_verbatim.2 "Table.Field\n" "Table.Field" (by decide)⟩

/-- Claim C8 is false on the code (counterexample): regenerating over an
existing `.luacheckrc` that has content after its globals block discards
that trailing content — `-- tail comment` is present in the input document
but absent from the regenerated one — so parts of the document outside the
globals block are not all preserved. -/
theorem c8_trailing_content_discarded_cex :
    update_luacheckrc (.vcons "A" .vtrue .vnil)
        (some "std = 'x'\n\nglobals = \x7b\n    \"A\"\n\x7d\n-- tail comment\n")
      = some "std = 'x'\n\nglobals = \x7b\n    \"A\"\n\x7d\n" ∧
    findSub ("std = 'x'\n\nglobals = \x7b\n    \"A\"\n\x7d\n-- tail comment\n").toList
        ("-- tail comment").toList ≠ none ∧
    findSub ("std = 'x'\n\nglobals = \x7b\n    \"A\"\n\x7d\n").toList
        ("-- tail comment").toList = none := by
  exact ⟨by decide, by decide, by decide⟩

/-- Claim C8 (amended): `update_luacheckrc` preserves only the part of the
document before the first `"globals = {"` (right-stripped, rejoined with a
blank line) and replaces everything from that point on — including any
content after the globals block, which is discarded; and when the file does
not exist no file is created at all: the source's missing-file branch calls
`str.format` on the default template, whose unescaped braces raise
`KeyError` before anything is written. -/
theorem c8_preamble_preserved (g : Val) (pre rest : Str)
    (h : ∀ j, j < pre.length →
      luacheck_needle.isPrefixOf (List.drop j pre ++ (luacheck_needle ++ rest)) = false) :
    update_luacheckrc g (some (String.mk (pre ++ (luacheck_needle ++ rest))))
      = some (String.mk (rstrip pre) ++ "\n\n" ++ new_globals_block g ++ "\n") ∧
    update_luacheckrc g none = none := by
  constructor
  · have hfind : findSub (pre ++ (luacheck_needle ++ rest)) luacheck_needle
        = some pre.length := by
      simpa using findSubGo_boundary luacheck_needle rest pre 0 h
    show (match findSub (pre ++ (luacheck_needle ++ rest)) luacheck_needle with
      | some idx =>
        some (String.mk (rstrip (List.take idx (pre ++ (luacheck_needle ++ rest)))) ++
          "\n\n" ++ new_globals_block g ++ "\n")
      | none =>
        some (String.mk (rstrip (pre ++ (luacheck_needle ++ rest))) ++
          "\n\n" ++ new_globals_block g ++ "\n"))
      = some (String.mk (rstrip pre) ++ "\n\n" ++ new_globals_block g ++ "\n")
    rw [hfind]
    show some (String.mk (rstrip (List.take pre.length (pre ++ (luacheck_needle ++ rest)))) ++
        "\n\n" ++ new_globals_block g ++ "\n")
      = some (String.mk (rstrip pre) ++ "\n\n" ++ new_globals_block g ++ "\n")
    rw [List.take_left]
  · rfl

/-- Witness for the amended C8 at concrete inputs: for the document
`"p\n\nglobals = {\n}\n"` the preamble `p` is kept and everything from the
globals block on is replaced, while regenerating with no existing file
produces no file at all. -/
theorem c8_preamble_preserved_witness :
    update_luacheckrc Val.vnil
        (some (String.mk (("p\n\n").toList ++ (luacheck_needle ++ ("\n\x7d\n").toList))))
      = some (String.mk (rstrip ("p\n\n").toList) ++ "\n\n" ++ new_globals_block Val.vnil ++ "\n") ∧
    update_luacheckrc Val.vnil none = none :=
  c8_preamble_preserved Val.vnil ("p\n\n").toList ("\n\x7d\n").toList (by decide)

/-- Claim C9: the Snapshot Differ (modelled from the spec, no implementation
exists under src/) reports `added = |current − previous|` and
`removed = |previous − current|`: the counts satisfy the set-cardinality
equations against the intersection, and on the spec's example —
previous `{A,B,C}`, current `{A,C,D}` — it reports `added = 1, removed = 1`. -/
theorem c9_snapshot_diff_counts :
    (∀ current previous : Finset String,
      (snapshot_diff current previous).1 + (current ∩ previous).card = current.card ∧
      (snapshot_diff current previous).2 + (previous ∩ current).card = previous.card) ∧
    snapshot_diff {"A", "C", "D"} {"A", "B", "C"} = (1, 1) := by
  constructor
  · intro current previous
    exact ⟨Finset.card_sdiff_add_card_inter current previous,
      Finset.card_sdiff_add_card_inter previous current⟩
  · decide

/-- Claim C10: within one invocation of `parse_api_definitions` or
`parse_framemxml_globals`, a name that received structured fields is
returned structured even when the same name was also collected as a simple
global: the simple-insertion loop only inserts names absent from the map, so
a plain occurrence never overwrites a structured entry of the same parser
run. -/
theorem c10_structured_entry_persists (content : Str) (k : String) (v : Val) :
    (lookupV (apiStructured content) k = some v →
      lookupV (parse_api_definitions content) k = some v ∧ v.isDict = true) ∧
    (lookupV (fxStructured content) k = some v →
      lookupV (parse_framemxml_globals content) k = some v ∧ v.isDict = true) := by
  constructor
  · intro h
    refine ⟨?_, ?_⟩
    · unfold parse_api_definitions
      exact lookupV_insertSimples _ _ _ _ h
    · unfold apiStructured at h
      exact lookupV_structEntriesOf _ k v h
  · intro h
    refine ⟨?_, ?_⟩
    · unfold parse_framemxml_globals
      exact lookupV_insertSimples _ _ _ _ h
    · unfold fxStructured at h
      exact lookupV_structEntriesOf _ k v h

/-- Witness for C10 at concrete inputs: `C_Dual` is both a structured table
and a function name in the same API source, and `T` is both a dotted parent
and a bare name in the same FrameXML source; both come back structured. -/
theorem c10_structured_entry_persists_witness :
    (lookupV (parse_api_definitions
        ("C_Dual = \x7bfields = \x7b\"F\"\x7d\x7d\nfunction C_Dual()").toList) "C_Dual"
      = some (structV ["F"]) ∧ (structV ["F"]).isDict = true) ∧
    (lookupV (parse_framemxml_globals
        ("local FrameXML = \x7b\"T.F\", \"T\"\x7d").toList) "T"
      = some (structV ["F"]) ∧ (structV ["F"]).isDict = true) :=
  ⟨(c10_structured_entry_persists
      ("C_Dual = \x7bfields = \x7b\"F\"\x7d\x7d\nfunction C_Dual()").toList
      "C_Dual" (structV ["F"])).1 (by decide),
   (c10_structured_entry_persists
      ("local FrameXML = \x7b\"T.F\", \"T\"\x7d").toList
      "T" (structV ["F"])).2 (by decide)⟩
